import Mathlib

/-!
# getad-viewer: the admin client of the relay protocol (`main.go`)

A shallow embedding of `main.go`.  Text is a list of code points.  The outside
world (the dialer, the websocket connection, standard input, the terminal, the
identifier generator) is a record of scripts: each script lists what the
successive calls of one external operation return.  Everything the program
does to the outside world is appended to the trace `World.out`.

Loops of the source are functions with a fuel argument (`none` = the fuel ran
out); a call whose script is exhausted never returns (`blocked`).
-/

namespace GetadViewer

/-- Go `string`, as its sequence of code points. -/
abbrev Str := List Char

/-- The line terminator `'\n'`. -/
def LF : Char := Char.ofNat 10

/-- The carriage return `'\r'`. -/
def CR : Char := Char.ofNat 13

/-- A value decoded by `encoding/json` into `interface{}`; only the dynamic
type matters to the program, so composite values keep their JSON text. -/
inductive JVal where
  | null
  | bool (b : Bool)
  | number (text : Str)
  | string (s : Str)
  | array (text : Str)
  | object (text : Str)
deriving DecidableEq, Repr

/-- The wire message: `type Message struct` (field `Type` is `Type_` here; a
`map[string]interface{}` is an association list read by its first binding; the
zero value of a field is the empty text or the empty map). -/
structure Message where
  Type_ : Str := []
  ClientID : Str := []
  CommandID : Str := []
  Command : Str := []
  Prompt : Str := []
  Result : List (Str × JVal) := []
  Role : Str := []
  ID : Str := []
  Password : Str := []
  Error : Str := []
  ApiKey : Str := []
deriving DecidableEq, Repr

/-- The outcome of `websocket.DefaultDialer.Dial`: a connection (`err == nil`),
or an error together with the HTTP response, if any, reduced to its status. -/
inductive DialResult where
  | ok (conn : Nat)
  | fail (status : Option Nat) (err : Str)
deriving DecidableEq, Repr

/-- What the program does to the outside world. -/
inductive Event where
  | print (text : Str)
  | dial (server : Str)
  | write (conn : Nat) (m : Message)
  | close (conn : Nat)
  | sleep (seconds : Nat)
  | exit (code : Nat)
deriving DecidableEq, Repr

/-- The outside world.
* `isTerminal`: `term.IsTerminal(os.Stdin.Fd())`;
* `buf`: the unread bytes held by the shared `bufio.Reader` of `main`
  (`reader.Buffered()` is its length);
* `stdin`: the data that the successive `os.Stdin.Read` calls of the shared
  reader deliver; after the last one the stream is at end of file;
* `secrets`: what the successive reads of a secret return (`term.ReadPassword`
  on a terminal, `ReadString` of the fresh reader of `readPassword` otherwise);
* `dials`: the outcomes of the successive `Dial` calls;
* `writes`: the outcomes of the successive `WriteJSON` calls (`none` = no error;
  calls beyond the script succeed);
* `reads`: the outcomes of the successive `ReadJSON` calls;
* `uuid`, `uuidCalls`: `uuid.NewString()` returns `uuid uuidCalls`;
* `out`: the trace. -/
structure World where
  isTerminal : Bool := false
  buf : Str := []
  stdin : List Str := []
  secrets : List (Except Str Str) := []
  dials : List DialResult := []
  writes : List (Option Str) := []
  reads : List (Except Str Message) := []
  uuid : Nat → Str := fun _ => []
  uuidCalls : Nat := 0
  out : List Event := []

/-! ## Library operations -/

/-- Go `unicode.IsSpace`: the code points with the White_Space property. -/
def isSpace (c : Char) : Bool :=
  let n := c.toNat
  (9 ≤ n && n ≤ 13) || n == 32 || n == 0x85 || n == 0xA0 || n == 0x1680 ||
  (0x2000 ≤ n && n ≤ 0x200A) || n == 0x2028 || n == 0x2029 || n == 0x202F ||
  n == 0x205F || n == 0x3000

/-- Go `strings.TrimSpace`. -/
def TrimSpace (s : Str) : Str :=
  ((s.dropWhile isSpace).reverse.dropWhile isSpace).reverse

/-- Go `strings.TrimRight(s, cutset)`. -/
def TrimRight (s cutset : Str) : Str :=
  (s.reverse.dropWhile (fun c => cutset.contains c)).reverse

/-- The text `io.EOF` prints as. -/
def EOF : Str := "EOF".toList

/-- Splits a buffer after its first line terminator, if it has one. -/
def splitLine : Str → Option (Str × Str)
  | [] => none
  | c :: cs =>
    if c = LF then some ([c], cs)
    else match splitLine cs with
      | some (l, r) => some (c :: l, r)
      | none => none

/-- The result of `bufio.Reader.ReadString`: the text, the error if any, and
the reader afterwards (its buffer and what its source still delivers). -/
structure ReadResult where
  text : Str
  err : Option Str
  buf : Str
  stdin : List Str
deriving DecidableEq, Repr

/-- `bufio.Reader.ReadString('\n')` on a reader holding `buf` over a source
delivering `src`: the data up to and including the first terminator; when the
source ends before one is found, the data read so far and `io.EOF`. -/
def readString : Str → List Str → ReadResult
  | buf, [] =>
    match splitLine buf with
    | some (l, r) => ⟨l, none, r, []⟩
    | none => ⟨buf, some EOF, [], []⟩
  | buf, c :: cs =>
    match splitLine buf with
    | some (l, r) => ⟨l, none, r, c :: cs⟩
    | none => readString (buf ++ c) cs

/-- `reader.ReadString('\n')` on the shared reader. -/
def ReadString (w : World) : (Str × Option Str) × World :=
  let r := readString w.buf w.stdin
  ((r.text, r.err), { w with buf := r.buf, stdin := r.stdin })

/-- `reader.Buffered()` on the shared reader. -/
def Buffered (w : World) : Nat := w.buf.length

/-- Appends an event to the trace. -/
def emit (e : Event) (w : World) : World := { w with out := w.out ++ [e] }

/-- `fmt.Print(s)`. -/
def Print (s : Str) (w : World) : World := emit (.print s) w

/-- `fmt.Println(s)`. -/
def Println (s : Str) (w : World) : World := emit (.print (s ++ [LF])) w

/-- `fmt.Println(a, b)`: the operands separated by a space. -/
def Println2 (a b : Str) (w : World) : World := emit (.print (a ++ [' '] ++ b ++ [LF])) w

/-- `time.Sleep(seconds * time.Second)`. -/
def Sleep (seconds : Nat) (w : World) : World := emit (.sleep seconds) w

/-- `conn.Close()`. -/
def Close (conn : Nat) (w : World) : World := emit (.close conn) w

/-- `conn.WriteJSON(m)`: the error, if any. -/
def WriteJSON (conn : Nat) (m : Message) (w : World) : Option Str × World :=
  let w1 := emit (.write conn m) w
  match w1.writes with
  | [] => (none, w1)
  | r :: rest => (r, { w1 with writes := rest })

/-- `conn.ReadJSON(&msg)`: the message or the error; `none` when the call never
returns. -/
def ReadJSON (_conn : Nat) (w : World) : Option (Except Str Message × World) :=
  match w.reads with
  | [] => none
  | r :: rest => some (r, { w with reads := rest })

/-- `uuid.NewString()`. -/
def NewString (w : World) : Str × World :=
  (w.uuid w.uuidCalls, { w with uuidCalls := w.uuidCalls + 1 })

/-- The messages handed to `WriteJSON` in a trace, with their connection. -/
def sent : List Event → List (Nat × Message)
  | [] => []
  | .write c m :: es => (c, m) :: sent es
  | _ :: es => sent es

/-! ## Message kinds and console texts of `main.go` -/

def kAdminHello : Str := "admin_hello".toList
def kError : Str := "error".toList
def kAuth : Str := "auth".toList
def kAuthOk : Str := "auth_ok".toList
def kRegister : Str := "register".toList
def kControl : Str := "control".toList
def kInteractivePrompt : Str := "interactive_prompt".toList
def kInteractiveResponse : Str := "interactive_response".toList
def kResult : Str := "result".toList
def kSessionClosed : Str := "session_closed".toList
def kCommand : Str := "command".toList

def server : Str := "wss://pr-noip.sympl.su/ws".toList
def apiKey : Str := "b5679e9e-b5b5-4eaf-bb99-83dba95f9f53".toList

def txtAskID : Str := "Введите id-подключения: ".toList
def txtAskPassword : Str := "Введите пароль: ".toList
def txtPasswordError : Str := "Ошибка ввода пароля:".toList
def txtAuthOk : Str := "Авторизация успешна".toList
def txtAuthError : Str := "Ошибка авторизации:".toList
def txtBlocked : Str := "Подключение отклонено сервером: IP заблокирован".toList
def txtUnavailable : Str := "Сервер недоступен, повторная попытка через 10 секунд...".toList
def txtConnected : Str := "Соединение с сервером установлено".toList
def txtHelloError : Str := "Ошибка отправки admin_hello:".toList
def txtBrokenByServer : Str := "Соединение разорвано сервером".toList
def txtRetry : Str := "Повторная попытка через 10 секунд...".toList
def txtLostInAuth : Str := "Соединение потеряно во время авторизации\n".toList
def txtBroken : Str := "\nСоединение разорвано, нажмите Enter для продолжения".toList
def txtClientClosed : Str := "\nСессия клиента завершена, нажмите Enter для продолжения".toList
def txtReconnect : Str := "\nПереподключение к серверу...\n".toList
def txtLost : Str := "\nСоединение потеряно, переподключение...\n".toList

/-! ## `readPassword` -/

/-- `readPassword(prompt)` (`main.go` 33-52): the secret and the error; `none`
when the read of the secret never returns.  On a terminal the secret is what
`term.ReadPassword` returns; otherwise it is the line read by a fresh reader
over standard input, without its trailing CR and LF characters.  What that
fresh reader receives is part of the script `secrets`, not of `stdin`. -/
def readPassword (prompt : Str) (w : World) : Option ((Str × Option Str) × World) :=
  let w1 := Print prompt w
  match w1.secrets with
  | [] => none
  | r :: rest =>
    let w2 := { w1 with secrets := rest }
    if w2.isTerminal then
      let w3 := Println [] w2
      match r with
      | .error e => some (([], some e), w3)
      | .ok b => some ((b, none), w3)
    else
      match r with
      | .error e => some (([], some e), w2)
      | .ok text => some ((TrimRight text [CR, LF], none), w2)

/-! ## `authLoop` -/

/-- How `authLoop` ends: with the client identifier, with an error, or never
(`blocked`: a call into the outside world does not return). -/
inductive AuthResult where
  | ok (clientID : Str)
  | err (e : Str)
  | blocked
deriving DecidableEq, Repr

/-- `authLoop(conn, reader)` (`main.go` 56-92); one unit of fuel per round. -/
def authLoop (conn : Nat) : Nat → World → Option (AuthResult × World)
  | 0, _ => none
  | fuel + 1, w =>
    let w1 := Print txtAskID w
    match ReadString w1 with
    | ((_, some e), w2) => some (.err e, w2)
    | ((text, none), w2) =>
      let clientID := TrimSpace text
      match readPassword txtAskPassword w2 with
      | none => some (.blocked, Print txtAskPassword w2)
      | some ((_, some e), w3) => authLoop conn fuel (Println2 txtPasswordError e w3)
      | some ((password, none), w3) =>
        match WriteJSON conn { Type_ := kAuth, ClientID := clientID, Password := password } w3 with
        | (some e, w4) => some (.err e, w4)
        | (none, w4) =>
          match ReadJSON conn w4 with
          | none => some (.blocked, w4)
          | some (.error e, w5) => some (.err e, w5)
          | some (.ok resp, w5) =>
            if resp.Type_ = kAuthOk then
              some (.ok clientID, Println txtAuthOk w5)
            else
              authLoop conn fuel (Println2 txtAuthError resp.Error w5)

/-! ## `connectWithRetry` -/

/-- How `connectWithRetry` ends: it returns a connection, the process exits
(`os.Exit`), or `Dial` never returns. -/
inductive ConnResult where
  | conn (c : Nat)
  | exited (code : Nat)
  | blocked
deriving DecidableEq, Repr

/-- `connectWithRetry(server)` (`main.go` 96-116); one unit of fuel per dial
attempt.  `os.Exit` ends the run: nothing follows it. -/
def connectWithRetry (srv : Str) : Nat → World → Option (ConnResult × World)
  | 0, _ => none
  | fuel + 1, w =>
    match w.dials with
    | [] => some (.blocked, emit (.dial srv) w)
    | d :: rest =>
      let w1 := { emit (.dial srv) w with dials := rest }
      match d with
      | .fail status _ =>
        if status = some 403 then
          some (.exited 1, emit (.exit 1) (Sleep 30 (Println txtBlocked w1)))
        else
          connectWithRetry srv fuel (Sleep 10 (Println txtUnavailable w1))
      | .ok c => some (.conn c, Println txtConnected w1)

/-! ## `drainStdin` -/

/-- `drainStdin(reader)` (`main.go` 118-122); one unit of fuel per line read. -/
def drainStdin : Nat → World → Option World
  | 0, _ => none
  | fuel + 1, w =>
    if Buffered w > 0 then drainStdin fuel (ReadString w).2
    else some w

/-! ## `main`: connection and negotiation -/

/-- Where the `SESSION LOOP` of `main` stands: at the `select` on
`sessionClosed`, at the read of an operator line, or past `goto RECONNECT`. -/
inductive Pc where
  | select
  | read
  | reconnect
deriving DecidableEq, Repr

/-- A session: what the three activities of `main` share once negotiation has
succeeded.  `sessionClosed` is the channel of that name (`true` = closed);
`pc` is where the command loop of `main` stands. -/
structure Session where
  w : World
  conn : Nat
  clientID : Str
  adminID : Str
  sessionClosed : Bool := false
  pc : Pc := .select

/-- How one pass of the outer loop of `main` ends before a session runs. -/
inductive IterResult where
  | reconnect
  | exited (code : Nat)
  | blocked
  | outOfFuel
  | session (conn : Nat) (clientID adminID : Str)
deriving DecidableEq, Repr

/-- The `admin_hello` message of `main`. -/
def adminHello : Message := { Type_ := kAdminHello, ApiKey := apiKey }

/-- The `AUTH` part of one pass of `main` on the connection `c` (`main.go`
163-176): the call of `authLoop`, then either the `continue` on its error or
the registration, whose error is ignored. -/
def mainAuth (c : Nat) (fuel : Nat) (w4 : World) : IterResult × World :=
  match authLoop c fuel w4 with
  | none => (.outOfFuel, w4)
  | some (.blocked, w5) => (.blocked, w5)
  | some (.err _, w5) => (.reconnect, Close c (Println txtLostInAuth w5))
  | some (.ok clientID, w5) =>
    let (adminID, w6) := NewString w5
    let (_, w7) := WriteJSON c { Type_ := kRegister, Role := "admin".toList, ID := adminID } w6
    (.session c clientID adminID, w7)

/-- One pass of the body of the outer `for` of `main` (`main.go` 130-176), from
`connectWithRetry` to the start of the three activities (or to a `continue`):
`CONNECT`, the hello exchange, `drainStdin`, then `AUTH`. -/
def mainIter (fuel : Nat) (w : World) : IterResult × World :=
  match connectWithRetry server fuel w with
  | none => (.outOfFuel, w)
  | some (.exited code, w1) => (.exited code, w1)
  | some (.blocked, w1) => (.blocked, w1)
  | some (.conn c, w1) =>
    match WriteJSON c adminHello w1 with
    | (some e, w2) => (.reconnect, Close c (Println2 txtHelloError e w2))
    | (none, w2) =>
      match ReadJSON c w2 with
      | none => (.blocked, w2)
      | some (.error _, w3) => (.reconnect, Close c (Println txtBrokenByServer w3))
      | some (.ok helloResp, w3) =>
        if helloResp.Type_ = kError then
          (.reconnect, Sleep 10 (Println txtRetry (Close c (Println helloResp.Error w3))))
        else
          match drainStdin fuel w3 with
          | none => (.outOfFuel, w3)
          | some w4 => mainAuth c fuel w4

/-- The outer `for` of `main` up to the first session, exit or blocked call;
one unit of fuel per pass. -/
def mainLoop : Nat → World → Option (IterResult × World)
  | 0, _ => none
  | fuel + 1, w =>
    match mainIter (fuel + 1) w with
    | (.reconnect, w1) => mainLoop fuel w1
    | r => some r

/-- The session that `main` starts after a successful pass. -/
def startSession (conn : Nat) (clientID adminID : Str) (w : World) : Session :=
  { w := w, conn := conn, clientID := clientID, adminID := adminID,
    sessionClosed := false, pc := .select }

/-! ## `main`: the three activities of a session -/

/-- `msg.Result["output"].(string)`. -/
def outputText (m : Message) : Option Str :=
  match m.Result.lookup "output".toList with
  | some (.string s) => some s
  | _ => none

/-- One turn of the goroutine that reads the server (`SERVER READER`,
`main.go` 197-229): one `ReadJSON` and the dispatch on the kind.  The goroutine has returned, and
`sessionClosed` is closed by its `defer`, exactly when the flag is set. -/
def serverReaderStep (s : Session) : Session :=
  if s.sessionClosed then s
  else
    match ReadJSON s.conn s.w with
    | none => s
    | some (.error _, w1) => { s with w := Println txtBroken w1, sessionClosed := true }
    | some (.ok msg, w1) =>
      if msg.Type_ = kInteractivePrompt then
        let w2 := Print msg.Prompt w1
        let (_, w3) := WriteJSON s.conn
          { Type_ := kInteractiveResponse, CommandID := msg.CommandID, Command := [],
            ID := s.adminID } w2
        { s with w := w3 }
      else if msg.Type_ = kResult then
        match outputText msg with
        | some out => { s with w := Print out w1 }
        | none => { s with w := w1 }
      else if msg.Type_ = kSessionClosed then
        { s with w := Println txtClientClosed w1, sessionClosed := true }
      else { s with w := w1 }

/-- One delivery on `sigChan` to the goroutine that relays interrupts
(`main.go` 183-194): the goroutine has no exit and reads no other channel. -/
def interruptStep (s : Session) : Session :=
  let (_, w1) := WriteJSON s.conn
    { Type_ := kControl, ClientID := s.clientID, ID := s.adminID,
      Command := "CTRL_C".toList } s.w
  { s with w := w1 }

/-- One turn of the `SESSION LOOP` of `main` (`main.go` 232-263): at `select`,
the poll of `sessionClosed`; at `read`, the read of one operator line and what
follows it up to the next poll. -/
def commandLoopStep (s : Session) : Session :=
  match s.pc with
  | .reconnect => s
  | .select =>
    if s.sessionClosed then
      { s with w := Println txtReconnect (Close s.conn s.w), pc := .reconnect }
    else { s with pc := .read }
  | .read =>
    match ReadString s.w with
    | ((_, some _), w1) => { s with w := w1, pc := .select }
    | ((line, none), w1) =>
      let cmd := TrimRight line [CR, LF]
      if cmd = [] then { s with w := w1, pc := .select }
      else
        let (commandID, w2) := NewString w1
        match WriteJSON s.conn
          { Type_ := kCommand, ClientID := s.clientID, CommandID := commandID,
            Command := cmd, ID := s.adminID } w2 with
        | (some _, w3) =>
          { s with w := Println txtLost (Close s.conn w3), pc := .reconnect }
        | (none, w3) => { s with w := w3, pc := .select }

/-- Which activity of a session takes the next turn.  A turn is atomic; an
activity blocked in a call takes its turn when the call returns. -/
inductive Activity where
  | commandLoop
  | serverReader
  | interrupt
deriving DecidableEq, Repr

/-- One turn of a session. -/
def sessionStep (a : Activity) (s : Session) : Session :=
  match a with
  | .commandLoop => commandLoopStep s
  | .serverReader => serverReaderStep s
  | .interrupt => interruptStep s

/-- A session under a schedule: an interleaving of the turns of the three
activities.  Every list of turns is a schedule. -/
def runSession : List Activity → Session → Session
  | [], s => s
  | a :: as, s => runSession as (sessionStep a s)

/-! ## Measures on traces -/

/-- The number of `Dial` calls in a trace. -/
def dialCount : List Event → Nat
  | [] => 0
  | .dial _ :: es => dialCount es + 1
  | _ :: es => dialCount es

/-- The total time slept in a trace, in seconds. -/
def sleptSeconds : List Event → Nat
  | [] => 0
  | .sleep n :: es => sleptSeconds es + n
  | _ :: es => sleptSeconds es

/-- The trace of one failed dial attempt that is retried. -/
def retryTrace (srv : Str) : List Event :=
  [.dial srv, .print (txtUnavailable ++ [LF]), .sleep 10]

/-- The trace of `n` failed dial attempts that are retried. -/
def retriesTrace (srv : Str) : Nat → List Event
  | 0 => []
  | n + 1 => retryTrace srv ++ retriesTrace srv n

/-- A failed dial outcome that is not a 403 rejection. -/
def transient (d : DialResult) : Prop :=
  ∃ status e, d = .fail status e ∧ status ≠ some 403

/-- A measure of the pending input of a reader: it decreases with every read
from a non-empty buffer. -/
def pending (buf : Str) (src : List Str) : Nat :=
  buf.length + (src.map List.length).sum + src.length

/-- One round of negotiation as the outside world plays it: the identifier
line the operator types (without its terminator), what the read of the secret
returns, and the response of the server. -/
structure Round where
  id : Str
  secret : Str
  resp : Message

/-- The secret typed in a round: on a terminal what `term.ReadPassword`
returns, otherwise the line read without its trailing CR and LF characters. -/
def secretTyped (isTerminal : Bool) (raw : Str) : Str :=
  if isTerminal then raw else TrimRight raw [CR, LF]

/-- The `auth` message of a round. -/
def authMessage (isTerminal : Bool) (r : Round) : Message :=
  { Type_ := kAuth, ClientID := TrimSpace r.id, Password := secretTyped isTerminal r.secret }

/-- The trace of `w2` continues the trace of `w1`. -/
def Extends (w1 w2 : World) : Prop := ∃ t, w2.out = w1.out ++ t

/-- What a round of `authLoop` prints while it reads the identifier and the
secret: the two prompts, and on a terminal the line break after the secret. -/
def promptTrace (isTerminal : Bool) : List Event :=
  [.print txtAskID, .print txtAskPassword] ++ if isTerminal then [.print [LF]] else []

/-- The number of messages of kind `k` handed to `WriteJSON` in a trace. -/
def countSent (k : Str) : List Event → Nat
  | [] => 0
  | .write _ m :: es => countSent k es + (if m.Type_ = k then 1 else 0)
  | _ :: es => countSent k es

/-- The commands the command loop of a session may still send once
`sessionClosed` is closed: one if a read is under way, none otherwise. -/
def readsUnderWay (s : Session) : Nat := if s.pc = .read then 1 else 0

/-- The session a finished pass of `main` starts, if it starts one. -/
def sessionOf : IterResult × World → Option Session
  | (.session c clientID adminID, w) => some (startSession c clientID adminID w)
  | _ => none

/-- `main` up to its first session, then that session under a schedule. -/
def runMain (fuel : Nat) (as : List Activity) (w : World) : Option Session :=
  match mainLoop fuel w with
  | none => none
  | some r => (sessionOf r).map (runSession as)

/-! ## Concrete runs -/

/-- A response to `admin_hello` that is not an error. -/
def helloAccepted : Message := { Type_ := "hello_ok".toList }

/-- The rejection of the scenario of the specification. -/
def badPassword : Message := { Type_ := kError, Error := "bad password".toList }

/-- The end-to-end scenario: the dial succeeds, the hello is accepted, the
operator types `c1` and `p` twice, the server rejects then accepts, the
operator types `ls`, the server answers with the output `file.txt`. -/
def scenarioWorld : World :=
  { dials := [.ok 1],
    reads := [.ok helloAccepted, .ok badPassword, .ok { Type_ := kAuthOk },
              .ok { Type_ := kResult,
                    Result := [("output".toList, .string "file.txt\n".toList)] }],
    stdin := ["c1\n".toList, "c1\n".toList, "ls\n".toList],
    secrets := [.ok "p\n".toList, .ok "p\n".toList],
    uuid := fun n => if n = 0 then "admin-1".toList else "cmd-1".toList }

/-- The negotiation of the scenario alone. -/
def authWorld : World :=
  { reads := [.ok badPassword, .ok { Type_ := kAuthOk }],
    stdin := ["c1\n".toList, "c1\n".toList],
    secrets := [.ok "p\n".toList, .ok "p\n".toList] }

/-- The rounds of the scenario. -/
def rejectedRound : Round := { id := "c1".toList, secret := "p\n".toList, resp := badPassword }

def acceptedRound : Round :=
  { id := "c1".toList, secret := "p\n".toList, resp := { Type_ := kAuthOk } }

/-- A session attached to `c1` whose command loop is about to read `ls`. -/
def lsSession : Session :=
  { w := { stdin := ["ls\n".toList], uuid := fun _ => "cmd-1".toList },
    conn := 1, clientID := "c1".toList, adminID := "admin-1".toList,
    sessionClosed := false, pc := .read }

/-- A session that is about to receive a `result` with the output `ok`. -/
def resultMessage : Message :=
  { Type_ := kResult, Result := [("output".toList, .string "ok\n".toList)] }

def resultSession : Session :=
  { w := { reads := [.ok resultMessage] },
    conn := 1, clientID := "c1".toList, adminID := "admin-1".toList }

/-- A session that is about to receive an `interactive_prompt`, while the
transport refuses the next send. -/
def promptMessage : Message :=
  { Type_ := kInteractivePrompt, Prompt := "Password: ".toList, CommandID := "cmd-7".toList }

def promptSession : Session :=
  { w := { reads := [.ok promptMessage], writes := [some "broken pipe".toList] },
    conn := 1, clientID := "c1".toList, adminID := "admin-1".toList }

/-- Two dial failures, the second one a 403 rejection, then a success that is
never reached. -/
def rejectedWorld : World :=
  { dials := [.fail none "i/o timeout".toList, .fail (some 403) "bad handshake".toList,
              .ok 7] }

/-- Two transient dial failures, then a success. -/
def retryWorld : World :=
  { dials := [.fail none "i/o timeout".toList, .fail (some 502) "bad handshake".toList,
              .ok 7] }

/-- A round of negotiation in which the transport refuses the `auth` message. -/
def brokenWriteWorld : World :=
  { stdin := ["c1\n".toList, "c2\n".toList], secrets := [.ok "p\n".toList, .ok "q\n".toList],
    writes := [some "broken pipe".toList] }

/-- A round of negotiation in which the response cannot be received. -/
def brokenReadWorld : World :=
  { stdin := ["c1\n".toList, "c2\n".toList], secrets := [.ok "p\n".toList, .ok "q\n".toList],
    reads := [.error "unexpected EOF".toList] }

/-- A fresh session attached to `c1`: the operator will type `ls`, the server
will announce `session_closed`. -/
def activeSession : Session :=
  startSession 1 "c1".toList "admin-1".toList
    { stdin := ["ls\n".toList], reads := [.ok { Type_ := kSessionClosed }],
      uuid := fun _ => "cmd-1".toList }

/-- The session `activeSession` once the command loop has polled the signal and
the server has then closed the session. -/
def closedSession : Session :=
  runSession [.commandLoop, .serverReader] activeSession

/-- A world whose input stream has ended. -/
def eofWorld : World := {}

/-- A fresh session whose input stream has ended. -/
def eofSession : Session := startSession 1 "c1".toList "admin-1".toList eofWorld

/-- A round of negotiation in which the secret cannot be read. -/
def noSecretWorld : World :=
  { stdin := ["c1\n".toList], secrets := [.error "EOF".toList] }

/-- Piped input: the first delivery of the stream holds the identifier line
and a further line `ls`; the secret arrives later. -/
def pipedWorld : World :=
  { dials := [.ok 1],
    reads := [.ok helloAccepted, .ok { Type_ := kAuthOk }],
    stdin := ["c1\nls\n".toList],
    secrets := [.ok "p\n".toList],
    uuid := fun n => if n = 0 then "admin-1".toList else "cmd-1".toList }

/-- A reader that holds a stale line and the start of another one when `main`
reaches `drainStdin`. -/
def staleWorld : World :=
  { dials := [.ok 1],
    reads := [.ok helloAccepted, .ok { Type_ := kAuthOk }],
    buf := "old\nju".toList,
    stdin := ["nk\n".toList, "c1\n".toList],
    secrets := [.ok "p\n".toList] }

/-- A session that is about to receive `session_closed`. -/
def closingSession : Session :=
  { w := { reads := [.ok { Type_ := kSessionClosed }] },
    conn := 1, clientID := "c1".toList, adminID := "admin-1".toList }

/-- A session that is about to receive a message of a kind `main` does not
know. -/
def pingMessage : Message := { Type_ := "ping".toList, Prompt := "x".toList }

def pingSession : Session :=
  { w := { reads := [.ok pingMessage] },
    conn := 1, clientID := "c1".toList, adminID := "admin-1".toList }

/-- The server refuses the hello. -/
def refusedHello : Message := { Type_ := kError, Error := "bad api key".toList }

def refusedWorld : World :=
  { dials := [.ok 1, .ok 2], reads := [.ok refusedHello] }

/-! ## Theorems -/

theorem dialCount_append (a b : List Event) :
    dialCount (a ++ b) = dialCount a + dialCount b := by
  induction a with
  | nil => simp [dialCount]
  | cons e es ih => cases e <;> simp [dialCount, ih]; omega

theorem sleptSeconds_append (a b : List Event) :
    sleptSeconds (a ++ b) = sleptSeconds a + sleptSeconds b := by
  induction a with
  | nil => simp [sleptSeconds]
  | cons e es ih => cases e <;> simp [sleptSeconds, ih]; omega

theorem dialCount_retriesTrace (srv : Str) (n : Nat) :
    dialCount (retriesTrace srv n) = n := by
  induction n with
  | zero => rfl
  | succ n ih => simp [retriesTrace, retryTrace, dialCount_append, dialCount, ih]

theorem sleptSeconds_retriesTrace (srv : Str) (n : Nat) :
    sleptSeconds (retriesTrace srv n) = 10 * n := by
  induction n with
  | zero => rfl
  | succ n ih => simp [retriesTrace, retryTrace, sleptSeconds_append, sleptSeconds, ih]; omega

/-- After the transient failures `fails`, `connectWithRetry` stands where it
would with the remaining dial outcomes, having retried once per failure. -/
theorem connectWithRetry_skip (srv : Str) (fails : List DialResult) :
    ∀ (fuel : Nat) (w : World) (rest : List DialResult),
      w.dials = fails ++ rest → (∀ d ∈ fails, transient d) →
      connectWithRetry srv (fails.length + fuel) w =
        connectWithRetry srv fuel
          { w with dials := rest, out := w.out ++ retriesTrace srv fails.length } := by
  induction fails with
  | nil =>
    intro fuel w rest hd _
    simp at hd
    simp [retriesTrace, ← hd]
  | cons d ds ih =>
    intro fuel w rest hd ht
    obtain ⟨status, e, rfl, hs⟩ := ht _ (List.mem_cons_self _ _)
    have hlen : (List.length (DialResult.fail status e :: ds) + fuel) = (ds.length + fuel) + 1 := by
      simp; omega
    rw [hlen, connectWithRetry]
    simp only [hd, List.cons_append, hs, if_false]
    rw [ih fuel _ rest (by simp [Sleep, Println, emit]) (fun d hd => ht d (List.mem_cons_of_mem _ hd))]
    simp [Sleep, Println, emit, retriesTrace, retryTrace]

/-- If `connectWithRetry` ends in a process exit, the exit code is 1 and the
dial script consists of transient failures followed by a 403 rejection. -/
theorem connectWithRetry_exit_only_403 (srv : Str) :
    ∀ (fuel : Nat) (w : World) (code : Nat) (w' : World),
      connectWithRetry srv fuel w = some (.exited code, w') →
      code = 1 ∧ ∃ fails e rest, w.dials = fails ++ .fail (some 403) e :: rest ∧
        ∀ d ∈ fails, transient d := by
  intro fuel
  induction fuel with
  | zero => intro w code w' h; simp [connectWithRetry] at h
  | succ n ih =>
    intro w code w' h
    rw [connectWithRetry] at h
    cases hd : w.dials with
    | nil => simp [hd] at h
    | cons d rest =>
      simp only [hd] at h
      cases d with
      | ok c => simp at h
      | fail status e =>
        simp only at h
        by_cases hs : status = some 403
        · subst hs
          simp at h
          exact ⟨h.1.symm, [], e, rest, by simp, by simp⟩
        · simp only [hs, if_false] at h
          obtain ⟨hc, fails, e', rest', hd', ht⟩ := ih _ _ _ h
          simp [Sleep, Println, emit] at hd'
          refine ⟨hc, .fail status e :: fails, e', rest', by simp [hd'], ?_⟩
          intro d hmem
          rcases List.mem_cons.1 hmem with rfl | hmem
          · exact ⟨status, e, rfl, hs⟩
          · exact ht d hmem

/-- C4: `connectWithRetry` ends the process exactly on a 403 rejection.  When
the dial outcomes are transient failures followed by a failure with status
403, it retries each transient failure, then on the rejection prints the
notice, sleeps 30 seconds and exits with code 1, leaving the later dial
outcomes untouched (and the outer loop of `main` stops there); and whenever it
ends in an exit, the code is 1 and the dial outcomes had that shape, so a
failure without response, a failure with another status and a success never
lead to an exit. -/
theorem connectWithRetry_exit_iff_403 (srv : Str) (fuel : Nat) (w : World) :
    (∀ fails e rest, w.dials = fails ++ .fail (some 403) e :: rest →
      (∀ d ∈ fails, transient d) → fails.length + 1 ≤ fuel →
      ∃ w', connectWithRetry srv fuel w = some (.exited 1, w') ∧
        w'.dials = rest ∧
        w'.out = w.out ++ retriesTrace srv fails.length ++
          [.dial srv, .print (txtBlocked ++ [LF]), .sleep 30, .exit 1] ∧
        (srv = server → mainLoop fuel w = some (.exited 1, w'))) ∧
    (∀ code w', connectWithRetry srv fuel w = some (.exited code, w') →
      code = 1 ∧
      ∃ fails e rest, w.dials = fails ++ .fail (some 403) e :: rest ∧
        ∀ d ∈ fails, transient d) := by
  refine ⟨?_, connectWithRetry_exit_only_403 srv fuel w⟩
  intro fails e rest hd ht hfuel
  obtain ⟨k, rfl⟩ : ∃ k, fuel = fails.length + (k + 1) := ⟨fuel - fails.length - 1, by omega⟩
  have h : connectWithRetry srv (fails.length + (k + 1)) w = some (.exited 1,
        { w with dials := rest,
                 out := w.out ++ retriesTrace srv fails.length ++
                   [.dial srv, .print (txtBlocked ++ [LF]), .sleep 30, .exit 1] }) := by
    rw [connectWithRetry_skip srv fails (k + 1) w _ hd ht, connectWithRetry]
    simp [Sleep, Println, emit]
  refine ⟨_, h, rfl, rfl, ?_⟩
  intro hsrv
  subst hsrv
  have e1 : fails.length + (k + 1) = (fails.length + k) + 1 := by omega
  rw [e1] at h ⊢
  rw [mainLoop, mainIter, h]

/-! ### The shared reader -/

theorem splitLine_append (a r : Str) (h : LF ∉ a) :
    splitLine (a ++ LF :: r) = some (a ++ [LF], r) := by
  induction a with
  | nil => simp [splitLine]
  | cons c cs ih =>
    have hc : c ≠ LF := fun e => h (by simp [e])
    have hcs : LF ∉ cs := fun e => h (by simp [e])
    simp [splitLine, hc, ih hcs]

theorem splitLine_none (b : Str) (h : LF ∉ b) : splitLine b = none := by
  induction b with
  | nil => rfl
  | cons c cs ih =>
    have hc : c ≠ LF := fun e => h (by simp [e])
    have hcs : LF ∉ cs := fun e => h (by simp [e])
    simp [splitLine, hc, ih hcs]

theorem splitLine_some (b l r : Str) (h : splitLine b = some (l, r)) :
    ∃ a, LF ∉ a ∧ l = a ++ [LF] ∧ b = a ++ LF :: r := by
  induction b generalizing l r with
  | nil => simp [splitLine] at h
  | cons c cs ih =>
    rw [splitLine] at h
    by_cases hc : c = LF
    · simp [hc] at h
      exact ⟨[], by simp, by simp [h.1.symm], by simp [hc, h.2]⟩
    · simp only [hc, if_false] at h
      cases hs : splitLine cs with
      | none => simp [hs] at h
      | some p =>
        obtain ⟨l', r'⟩ := p
        simp [hs] at h
        obtain ⟨a, ha, hl, hb⟩ := ih l' r' hs
        refine ⟨c :: a, ?_, ?_, ?_⟩
        · intro hm
          rcases List.mem_cons.1 hm with e | e
          · exact hc e.symm
          · exact ha e
        · simp [← h.1, hl]
        · simp [hb, ← h.2]

theorem splitLine_eq_none_iff (b : Str) : splitLine b = none ↔ LF ∉ b := by
  constructor
  · intro h hm
    obtain ⟨a, r, hb⟩ := List.append_of_mem hm
    induction a generalizing b with
    | nil => simp [hb, splitLine] at h
    | cons c cs ih =>
      subst hb
      rw [List.cons_append, splitLine] at h
      by_cases hc : c = LF
      · simp [hc] at h
      · simp only [hc, if_false] at h
        cases hs : splitLine (cs ++ LF :: r) with
        | none => exact ih _ hs (by simp) rfl
        | some p => simp [hs] at h
  · exact splitLine_none b

/-- A read of the shared reader whose pending input starts with a terminated
line returns that line, and the rest of the input stays pending. -/
theorem readString_line (src : List Str) :
    ∀ (buf a rest : Str), LF ∉ a → buf ++ src.flatten = a ++ LF :: rest →
      ∃ b s, readString buf src = ⟨a ++ [LF], none, b, s⟩ ∧ b ++ s.flatten = rest := by
  induction src with
  | nil =>
    intro buf a rest ha h
    simp at h
    subst h
    exact ⟨rest, [], by simp [readString, splitLine_append _ _ ha], by simp⟩
  | cons c cs ih =>
    intro buf a rest ha h
    rw [readString]
    cases hs : splitLine buf with
    | none =>
      simp only
      exact ih (buf ++ c) a rest ha (by simpa using h)
    | some p =>
      obtain ⟨l, r⟩ := p
      obtain ⟨a', ha', hl, hb⟩ := splitLine_some buf l r hs
      have h1 : splitLine (buf ++ (c :: cs).flatten) = some (a' ++ [LF], r ++ (c :: cs).flatten) := by
        rw [hb, List.append_assoc, List.cons_append]
        exact splitLine_append _ _ ha'
      have h2 := splitLine_append a rest ha
      rw [← h, h1] at h2
      simp only [Option.some.injEq, Prod.mk.injEq] at h2
      refine ⟨r, c :: cs, ?_, h2.2⟩
      simp [hl, h2.1]

theorem readString_pending (src : List Str) :
    ∀ buf : Str, buf ≠ [] →
      pending (readString buf src).buf (readString buf src).stdin < pending buf src := by
  induction src with
  | nil =>
    intro buf hb
    rw [readString]
    cases hs : splitLine buf with
    | none =>
      have : 0 < buf.length := List.length_pos.2 hb
      simp [pending]; omega
    | some p =>
      obtain ⟨l, r⟩ := p
      obtain ⟨a, _, _, hb'⟩ := splitLine_some buf l r hs
      simp [pending, hb']; omega
  | cons c cs ih =>
    intro buf hb
    rw [readString]
    cases hs : splitLine buf with
    | none =>
      have h := ih (buf ++ c) (by simp [hb])
      simp only
      simp only [pending, List.length_append, List.map_cons, List.sum_cons, List.length_cons] at h ⊢
      omega
    | some p =>
      obtain ⟨l, r⟩ := p
      obtain ⟨a, _, _, hb'⟩ := splitLine_some buf l r hs
      simp [pending, hb']; omega

theorem readString_stdin_drop (src : List Str) :
    ∀ buf : Str, ∃ n, (readString buf src).stdin = src.drop n := by
  induction src with
  | nil => intro buf; exact ⟨0, by rw [readString]; cases splitLine buf <;> rfl⟩
  | cons c cs ih =>
    intro buf
    rw [readString]
    cases hs : splitLine buf with
    | none =>
      obtain ⟨n, hn⟩ := ih (buf ++ c)
      exact ⟨n + 1, by simpa using hn⟩
    | some p => exact ⟨0, rfl⟩

theorem ReadString_line (w : World) (a rest : Str) (ha : LF ∉ a)
    (h : w.buf ++ w.stdin.flatten = a ++ LF :: rest) :
    ∃ b s, ReadString w = ((a ++ [LF], none), { w with buf := b, stdin := s }) ∧
      b ++ s.flatten = rest := by
  obtain ⟨b, s, hr, hb⟩ := readString_line w.stdin w.buf a rest ha h
  exact ⟨b, s, by simp [ReadString, hr], hb⟩

/-- `drainStdin` returns once it has enough fuel, with an empty buffer; it
consumes input only, a whole number of deliveries of the stream. -/
theorem drainStdin_spec :
    ∀ (fuel : Nat) (w : World), pending w.buf w.stdin < fuel →
      ∃ n, drainStdin fuel w = some { w with buf := [], stdin := w.stdin.drop n } := by
  intro fuel
  induction fuel with
  | zero => intro w h; omega
  | succ k ih =>
    intro w h
    rw [drainStdin]
    by_cases hb : w.buf = []
    · refine ⟨0, ?_⟩
      simp only [Buffered, hb, List.length_nil, lt_irrefl, if_false, List.drop_zero]
      cases w
      simp_all
    · have hpos : Buffered w > 0 := List.length_pos.2 hb
      have hm := readString_pending w.stdin w.buf hb
      obtain ⟨m, hdrop⟩ := readString_stdin_drop w.stdin w.buf
      simp only [hpos, if_true]
      obtain ⟨n, hn⟩ := ih (ReadString w).2 (by simp only [ReadString]; omega)
      refine ⟨m + n, ?_⟩
      rw [hn]
      simp [ReadString, hdrop, Nat.add_comm]

/-! ### Trimming -/

theorem isSpace_LF : isSpace LF = true := by decide

theorem TrimSpace_append_LF (s : Str) : TrimSpace (s ++ [LF]) = TrimSpace s := by
  unfold TrimSpace
  rw [List.dropWhile_append]
  by_cases h : (List.dropWhile isSpace s).isEmpty = true
  · have h' : List.dropWhile isSpace s = [] := by simpa using h
    simp [h', isSpace_LF]
  · simp [h, isSpace_LF]

/-! ### Traces -/

theorem sent_append (a b : List Event) : sent (a ++ b) = sent a ++ sent b := by
  induction a with
  | nil => simp [sent]
  | cons e es ih => cases e <;> simp [sent, ih]

/-! ### `authLoop` -/

/-- One round of `authLoop` in which every call succeeds: the `auth` message of
the round is sent, and the loop ends on `auth_ok` and goes on otherwise. -/
theorem authLoop_round (conn fuel : Nat) (w : World) (r : Round) (restIn : Str)
    (restSecrets : List (Except Str Str)) (restReads : List (Except Str Message))
    (hid : LF ∉ r.id)
    (hin : w.buf ++ w.stdin.flatten = r.id ++ LF :: restIn)
    (hsec : w.secrets = .ok r.secret :: restSecrets)
    (hwr : ∀ e ∈ w.writes.take 1, e = none)
    (hrd : w.reads = .ok r.resp :: restReads) :
    ∃ w', (w'.buf ++ w'.stdin.flatten = restIn ∧ w'.secrets = restSecrets ∧
        w'.reads = restReads ∧ w'.writes = w.writes.drop 1 ∧
        w'.isTerminal = w.isTerminal ∧
        sent w'.out = sent w.out ++ [(conn, authMessage w.isTerminal r)]) ∧
      authLoop conn (fuel + 1) w =
        if r.resp.Type_ = kAuthOk then some (.ok (TrimSpace r.id), w')
        else authLoop conn fuel w' := by
  obtain ⟨b, s, hread, hb⟩ := ReadString_line (Print txtAskID w) r.id restIn hid
    (by simpa [Print, emit] using hin)
  have hw : w.writes = [] ∨ ∃ rest, w.writes = none :: rest := by
    cases hws : w.writes with
    | nil => exact Or.inl rfl
    | cons e rest =>
      have := hwr e (by simp [hws])
      exact Or.inr ⟨rest, by simp [this]⟩
  rw [authLoop]
  simp only [hread]
  cases ht : w.isTerminal <;> rcases hw with hw | ⟨rest, hw⟩ <;>
    by_cases hok : r.resp.Type_ = kAuthOk <;>
    refine ⟨_, ?_, by
      simp [readPassword, Print, Println, emit, hsec, ht, WriteJSON, hw, ReadJSON, hrd, hok,
        TrimSpace_append_LF]
      rfl⟩ <;>
    simp [Println, Println2, emit, hb, hw, sent_append, sent, authMessage, secretTyped]

/-- C1: in a run of `authLoop` where the operator's reads and the transport
calls all succeed, the server answers the rounds `rs` with a kind other than
`auth_ok` and the round `last` with `auth_ok`: `authLoop` returns the trimmed
identifier of the last round, and the messages it sends are exactly one `auth`
message per round, in order, each with the trimmed identifier and the secret
typed in its round. -/
theorem authLoop_accepts_after_rejections (conn : Nat) (rs : List Round) :
    ∀ (w : World) (last : Round) (restIn : Str) (restSecrets : List (Except Str Str))
      (restReads : List (Except Str Message)) (fuel : Nat),
      (∀ r ∈ rs ++ [last], LF ∉ r.id) →
      w.buf ++ w.stdin.flatten =
        ((rs ++ [last]).map (fun r => r.id ++ [LF])).flatten ++ restIn →
      w.secrets = (rs ++ [last]).map (fun r => Except.ok r.secret) ++ restSecrets →
      (∀ e ∈ w.writes.take (rs.length + 1), e = none) →
      w.reads = (rs ++ [last]).map (fun r => Except.ok r.resp) ++ restReads →
      (∀ r ∈ rs, r.resp.Type_ ≠ kAuthOk) → last.resp.Type_ = kAuthOk →
      rs.length + 1 ≤ fuel →
      ∃ w', authLoop conn fuel w = some (.ok (TrimSpace last.id), w') ∧
        sent w'.out = sent w.out ++
          (rs ++ [last]).map (fun r => (conn, authMessage w.isTerminal r)) ∧
        (sent w'.out).length = (sent w.out).length + (rs.length + 1) := by
  induction rs with
  | nil =>
    intro w last restIn restSecrets restReads fuel hid hin hsec hwr hrd _ hok hfuel
    obtain ⟨k, rfl⟩ : ∃ k, fuel = k + 1 := ⟨fuel - 1, by omega⟩
    obtain ⟨w', hw', hrun⟩ := authLoop_round conn k w last restIn restSecrets restReads
      (hid last (by simp)) (by simpa using hin) (by simpa using hsec)
      (by simpa using hwr) (by simpa using hrd)
    rw [if_pos hok] at hrun
    exact ⟨w', hrun, by simpa using hw'.2.2.2.2.2, by simp [hw'.2.2.2.2.2]⟩
  | cons r rs ih =>
    intro w last restIn restSecrets restReads fuel hid hin hsec hwr hrd hrej hok hfuel
    obtain ⟨k, rfl⟩ : ∃ k, fuel = k + 1 := ⟨fuel - 1, by simp at hfuel; omega⟩
    obtain ⟨w', hw', hrun⟩ := authLoop_round conn k w r
      (((rs ++ [last]).map (fun r => r.id ++ [LF])).flatten ++ restIn)
      ((rs ++ [last]).map (fun r => Except.ok r.secret) ++ restSecrets)
      ((rs ++ [last]).map (fun r => Except.ok r.resp) ++ restReads)
      (hid r (by simp)) (by simpa using hin) (by simpa using hsec)
      (fun e he => hwr e (List.take_subset_take_left _ (by omega) he))
      (by simpa using hrd)
    rw [if_neg (hrej r (by simp))] at hrun
    obtain ⟨hbuf, hs, hr, hwrites, hterm, hsent⟩ := hw'
    obtain ⟨w'', hrun', hsent', _⟩ := ih w' last restIn restSecrets restReads k
      (fun x hx => hid x (by
        rcases List.mem_append.1 hx with h | h
        · exact List.mem_append.2 (Or.inl (List.mem_cons_of_mem _ h))
        · exact List.mem_append.2 (Or.inr h)))
      hbuf hs
      (fun e he => hwr e (by
        rw [hwrites] at he
        have h1 : List.take (rs.length + 1) (List.drop 1 w.writes) =
            List.drop 1 (List.take ((r :: rs).length + 1) w.writes) := by
          rw [List.drop_take]; simp
        rw [h1] at he
        exact List.mem_of_mem_drop he))
      hr (fun x hx => hrej x (List.mem_cons_of_mem _ hx)) hok
      (by simp at hfuel; omega)
    refine ⟨w'', by rw [hrun, hrun'], ?_, ?_⟩
    · rw [hsent', hsent, hterm]; simp
    · rw [hsent', hsent]; simp

/-! ### Traces only grow -/

theorem Extends.refl (w : World) : Extends w w := ⟨[], by simp⟩

theorem Extends.trans {a b c : World} (h1 : Extends a b) (h2 : Extends b c) : Extends a c := by
  obtain ⟨t1, h1⟩ := h1
  obtain ⟨t2, h2⟩ := h2
  exact ⟨t1 ++ t2, by rw [h2, h1, List.append_assoc]⟩

theorem Extends_emit (e : Event) (w : World) : Extends w (emit e w) := ⟨[e], rfl⟩

theorem Extends_of_out_eq {a b : World} (h : b.out = a.out) : Extends a b := ⟨[], by simp [h]⟩

theorem ReadString_out (w : World) : (ReadString w).2.out = w.out := rfl

theorem Extends_WriteJSON (c : Nat) (m : Message) (w : World) :
    Extends w (WriteJSON c m w).2 := by
  unfold WriteJSON
  cases h : (emit (.write c m) w).writes <;> simp only [h] <;> exact ⟨[.write c m], rfl⟩

theorem ReadJSON_out (c : Nat) (w w' : World) (r : Except Str Message)
    (h : ReadJSON c w = some (r, w')) : w'.out = w.out := by
  unfold ReadJSON at h
  cases hr : w.reads with
  | nil => simp [hr] at h
  | cons x xs =>
    simp [hr] at h
    rw [← h.2]

theorem Extends_readPassword (p : Str) (w w' : World) (r : Str × Option Str)
    (h : readPassword p w = some (r, w')) : Extends w w' := by
  unfold readPassword at h
  cases hs : (Print p w).secrets with
  | nil => simp [hs] at h
  | cons x xs =>
    simp only [hs] at h
    cases ht : w.isTerminal <;> cases x <;> simp [Print, Println, emit, ht] at h <;>
      rw [← h.2] <;> simp [Extends]

theorem Extends_authLoop (conn : Nat) :
    ∀ (fuel : Nat) (w w' : World) (r : AuthResult),
      authLoop conn fuel w = some (r, w') → Extends w w' := by
  intro fuel
  induction fuel with
  | zero => intro w w' r h; simp [authLoop] at h
  | succ k ih =>
    intro w w' r h
    rw [authLoop] at h
    have e0 : Extends w (ReadString (Print txtAskID w)).2 :=
      (Extends_emit _ w).trans (Extends_of_out_eq (ReadString_out _))
    generalize hrs : ReadString (Print txtAskID w) = rs at h e0
    obtain ⟨⟨text, err⟩, w2⟩ := rs
    cases err with
    | some e =>
      simp at h
      rw [← h.2]; exact e0
    | none =>
      simp only at h
      cases hp : readPassword txtAskPassword w2 with
      | none =>
        simp [hp] at h
        rw [← h.2]; exact e0.trans (Extends_emit _ _)
      | some pr =>
        obtain ⟨⟨pw, perr⟩, w3⟩ := pr
        have e1 := e0.trans (Extends_readPassword _ _ _ _ hp)
        cases perr with
        | some e =>
          simp only [hp] at h
          exact (e1.trans (Extends_emit _ _)).trans (ih _ _ _ h)
        | none =>
          simp only [hp] at h
          have e2 := e1.trans (Extends_WriteJSON conn
            { Type_ := kAuth, ClientID := TrimSpace text, Password := pw } w3)
          generalize hws : WriteJSON conn
            { Type_ := kAuth, ClientID := TrimSpace text, Password := pw } w3 = ws at h e2
          obtain ⟨werr, w4⟩ := ws
          cases werr with
          | some e =>
            simp at h
            rw [← h.2]; exact e2
          | none =>
            simp only at h
            cases hr : ReadJSON conn w4 with
            | none =>
              simp [hr] at h
              rw [← h.2]; exact e2
            | some rr =>
              obtain ⟨res, w5⟩ := rr
              have e3 := e2.trans (Extends_of_out_eq (ReadJSON_out _ _ _ _ hr))
              cases res with
              | error e =>
                simp [hr] at h
                rw [← h.2]; exact e3
              | ok resp =>
                simp only [hr] at h
                by_cases hok : resp.Type_ = kAuthOk
                · simp [hok] at h
                  rw [← h.2]; exact e3.trans (Extends_emit _ _)
                · simp only [hok, if_false] at h
                  exact (e3.trans (Extends_emit _ _)).trans (ih _ _ _ h)

theorem drainStdin_out :
    ∀ (fuel : Nat) (w w' : World), drainStdin fuel w = some w' → w'.out = w.out := by
  intro fuel
  induction fuel with
  | zero => intro w w' h; simp [drainStdin] at h
  | succ k ih =>
    intro w w' h
    rw [drainStdin] at h
    by_cases hb : Buffered w > 0
    · simp only [hb, if_true] at h
      rw [ih _ _ h, ReadString_out]
    · simp [hb] at h
      rw [← h]

theorem Extends_mainAuth (c fuel : Nat) (w : World) : Extends w (mainAuth c fuel w).2 := by
  unfold mainAuth
  cases h : authLoop c fuel w with
  | none => exact Extends.refl w
  | some p =>
    obtain ⟨r, w5⟩ := p
    have e := Extends_authLoop c fuel w w5 r h
    cases r with
    | ok clientID =>
      exact e.trans ((Extends_of_out_eq rfl).trans (Extends_WriteJSON c _ (NewString w5).2))
    | err x => exact (e.trans (Extends_emit _ _)).trans (Extends_emit _ _)
    | blocked => exact e

/-- A pass of the outer loop of `main` whose dial succeeds starts with that
dial and the `admin_hello` on the new connection. -/
theorem mainIter_starts_with_hello (fuel : Nat) (w : World) (c : Nat)
    (ds : List DialResult) (hd : w.dials = .ok c :: ds) :
    ∃ t, (mainIter (fuel + 1) w).2.out =
      w.out ++ [.dial server, .print (txtConnected ++ [LF]), .write c adminHello] ++ t := by
  have hc : connectWithRetry server (fuel + 1) w =
      some (.conn c, Println txtConnected { emit (.dial server) w with dials := ds }) := by
    rw [connectWithRetry]; simp [hd]
  generalize hw1 : Println txtConnected { emit (.dial server) w with dials := ds } = w1 at hc
  have ho1 : w1.out = w.out ++ [.dial server, .print (txtConnected ++ [LF])] := by
    rw [← hw1]; simp [Println, emit]
  have key : ∀ w' : World, Extends (emit (.write c adminHello) w1) w' →
      ∃ t, w'.out = w.out ++
        [.dial server, .print (txtConnected ++ [LF]), .write c adminHello] ++ t := by
    rintro w' ⟨t, ht⟩
    exact ⟨t, by rw [ht]; simp [emit, ho1]⟩
  have hwj : ∀ e w2, WriteJSON c adminHello w1 = (e, w2) →
      Extends (emit (.write c adminHello) w1) w2 := by
    intro e w2 h
    unfold WriteJSON at h
    cases hws : (emit (.write c adminHello) w1).writes with
    | nil => simp [hws] at h; rw [← h.2]; exact Extends.refl _
    | cons x xs => simp [hws] at h; rw [← h.2]; exact Extends_of_out_eq rfl
  unfold mainIter
  simp only [hc]
  generalize hws : WriteJSON c adminHello w1 = ws
  obtain ⟨werr, w2⟩ := ws
  have e2 := hwj _ _ hws
  cases werr with
  | some e => exact key _ ((e2.trans (Extends_emit _ _)).trans (Extends_emit _ _))
  | none =>
    simp only
    cases hr : ReadJSON c w2 with
    | none => exact key _ e2
    | some rr =>
      obtain ⟨res, w3⟩ := rr
      have e3 := e2.trans (Extends_of_out_eq (ReadJSON_out _ _ _ _ hr))
      cases res with
      | error e => exact key _ ((e3.trans (Extends_emit _ _)).trans (Extends_emit _ _))
      | ok helloResp =>
        simp only
        by_cases hk : helloResp.Type_ = kError
        · simp only [hk, if_true]
          exact key _ ((((e3.trans (Extends_emit _ _)).trans (Extends_emit _ _)).trans
            (Extends_emit _ _)).trans (Extends_emit _ _))
        · simp only [hk, if_false]
          cases hdr : drainStdin (fuel + 1) w3 with
          | none => exact key _ e3
          | some w4 =>
            exact key _ ((e3.trans (Extends_of_out_eq (drainStdin_out _ _ _ hdr))).trans
              (Extends_mainAuth c _ w4))

/-- C6: a transport failure in a round of `authLoop` is returned at once.  In
a round whose identifier line and secret are read, if `WriteJSON` fails, or if
it succeeds and `ReadJSON` fails, `authLoop` returns that error; the `auth`
message of the round is the last thing in its trace (no further prompt, no
further message).  `main`, on an error of `authLoop`, prints a notice, closes
the connection and ends the pass with `continue`; the outer loop then starts
its next pass on the world so reached, and that pass begins with a new dial
and, when the dial succeeds, the `admin_hello` on the new connection. -/
theorem authLoop_transport_error_reconnects (conn fuel : Nat) (w : World) :
    (∀ (id rest raw : Str) (rs : List (Except Str Str)),
      LF ∉ id → w.buf ++ w.stdin.flatten = id ++ LF :: rest →
      w.secrets = .ok raw :: rs →
      let msg : Message := { Type_ := kAuth, ClientID := TrimSpace id,
                             Password := secretTyped w.isTerminal raw }
      (∀ e ws, w.writes = some e :: ws →
        ∃ w', authLoop conn (fuel + 1) w = some (.err e, w') ∧
          w'.out = w.out ++ promptTrace w.isTerminal ++ [.write conn msg] ∧
          w'.reads = w.reads ∧ w'.secrets = rs ∧ w'.buf ++ w'.stdin.flatten = rest) ∧
      (∀ e rr, (∀ x ∈ w.writes.take 1, x = none) → w.reads = .error e :: rr →
        ∃ w', authLoop conn (fuel + 1) w = some (.err e, w') ∧
          w'.out = w.out ++ promptTrace w.isTerminal ++ [.write conn msg] ∧
          w'.reads = rr ∧ w'.secrets = rs ∧ w'.buf ++ w'.stdin.flatten = rest)) ∧
    (∀ e w5, authLoop conn fuel w = some (.err e, w5) →
      mainAuth conn fuel w =
        (.reconnect, { w5 with out := w5.out ++
          [.print (txtLostInAuth ++ [LF]), .close conn] }) ∧
      ∀ c ds n, w5.dials = .ok c :: ds →
        ∃ t, (mainIter (n + 1) (mainAuth conn fuel w).2).2.out =
          w5.out ++ [.print (txtLostInAuth ++ [LF]), .close conn] ++
            [.dial server, .print (txtConnected ++ [LF]), .write c adminHello] ++ t) ∧
    (∀ w1, mainIter (fuel + 1) w = (.reconnect, w1) →
      mainLoop (fuel + 1) w = mainLoop fuel w1) := by
  refine ⟨?_, ?_, ?_⟩
  · intro id rest raw rs hid hin hsec msg
    obtain ⟨b, s, hread, hb⟩ := ReadString_line (Print txtAskID w) id rest hid
      (by simpa [Print, emit] using hin)
    constructor
    · intro e ws hw
      rw [authLoop]
      simp only [hread]
      cases ht : w.isTerminal <;>
        refine ⟨_, by
          simp [readPassword, Print, Println, emit, hsec, ht, WriteJSON, hw,
            TrimSpace_append_LF]
          rfl, ?_, ?_⟩ <;>
        simp [msg, secretTyped, promptTrace, hb, ht]
    · intro e rr hwr hrd
      have hw : w.writes = [] ∨ ∃ rest, w.writes = none :: rest := by
        cases hws : w.writes with
        | nil => exact Or.inl rfl
        | cons e rest =>
          have := hwr e (by simp [hws])
          exact Or.inr ⟨rest, by simp [this]⟩
      rw [authLoop]
      simp only [hread]
      cases ht : w.isTerminal <;> rcases hw with hw | ⟨rest, hw⟩ <;>
        refine ⟨_, by
          simp [readPassword, Print, Println, emit, hsec, ht, WriteJSON, hw, ReadJSON, hrd,
            TrimSpace_append_LF]
          rfl, ?_, ?_⟩ <;>
        simp [msg, secretTyped, promptTrace, hb, ht]
  · intro e w5 h
    have hm : mainAuth conn fuel w =
        (.reconnect, { w5 with out := w5.out ++
          [.print (txtLostInAuth ++ [LF]), .close conn] }) := by
      simp [mainAuth, h, Close, Println, emit]
    refine ⟨hm, ?_⟩
    intro c ds n hd
    rw [hm]
    exact mainIter_starts_with_hello n _ c ds hd
  · intro w1 h
    rw [mainLoop, h]

/-! ### The activities of a session -/

theorem TrimRight_append_LF (a : Str) : TrimRight (a ++ [LF]) [CR, LF] = TrimRight a [CR, LF] := by
  have h : ([CR, LF] : Str).contains LF = true := by decide
  simp [TrimRight, List.dropWhile_cons, h]

/-- C3: a received `result` message whose `output` entry is a string is
displayed exactly, nothing being sent; without such an entry nothing is
displayed; in both cases the goroutine goes on to the next receive. -/
theorem serverReaderStep_result (s : Session) (msg : Message)
    (rest : List (Except Str Message)) (hopen : s.sessionClosed = false)
    (hrd : s.w.reads = .ok msg :: rest) (hk : msg.Type_ = kResult) :
    (∀ out, msg.Result.lookup "output".toList = some (.string out) →
      (serverReaderStep s).w.out = s.w.out ++ [.print out]) ∧
    ((∀ out, msg.Result.lookup "output".toList ≠ some (.string out)) →
      (serverReaderStep s).w.out = s.w.out) ∧
    sent (serverReaderStep s).w.out = sent s.w.out ∧
    (serverReaderStep s).sessionClosed = false ∧
    (serverReaderStep s).w.reads = rest ∧
    (serverReaderStep s).w.writes = s.w.writes ∧
    (serverReaderStep s).pc = s.pc := by
  have hne : kResult ≠ kInteractivePrompt := by decide
  cases ho : outputText msg with
  | none =>
    have hno : ∀ out, msg.Result.lookup "output".toList ≠ some (.string out) := by
      intro out h
      unfold outputText at ho
      rw [h] at ho
      simp at ho
    refine ⟨fun out h => absurd h (hno out), fun _ => ?_, ?_, ?_, ?_, ?_, ?_⟩ <;>
      simp [serverReaderStep, hopen, ReadJSON, hrd, hk, hne, ho]
  | some out =>
    have hout : msg.Result.lookup "output".toList = some (.string out) := by
      unfold outputText at ho
      split at ho
      · rename_i s' heq
        simp at ho
        rw [heq, ho]
      · simp at ho
    refine ⟨fun out' h => ?_, fun h => absurd hout (h out), ?_, ?_, ?_, ?_, ?_⟩
    · rw [hout] at h
      simp at h
      subst h
      simp [serverReaderStep, hopen, ReadJSON, hrd, hk, hne, ho, Print, emit]
    all_goals simp [serverReaderStep, hopen, ReadJSON, hrd, hk, hne, ho, Print, emit, sent_append, sent]

/-- C10: a received `interactive_prompt` is displayed exactly and answered by
one `interactive_response` with the same `command_id`, the admin id, an empty
command and no client id; whatever the outcome of that send, the goroutine goes
on to the next receive. -/
theorem serverReaderStep_interactive_prompt (s : Session) (msg : Message)
    (rest : List (Except Str Message)) (hopen : s.sessionClosed = false)
    (hrd : s.w.reads = .ok msg :: rest) (hk : msg.Type_ = kInteractivePrompt) :
    (serverReaderStep s).w.out = s.w.out ++
      [.print msg.Prompt,
       .write s.conn { Type_ := kInteractiveResponse, CommandID := msg.CommandID,
                       ID := s.adminID, Command := [], ClientID := [] }] ∧
    (serverReaderStep s).sessionClosed = false ∧
    (serverReaderStep s).w.reads = rest ∧
    (serverReaderStep s).pc = s.pc := by
  cases hw : s.w.writes <;>
    simp [serverReaderStep, hopen, ReadJSON, hrd, hk, WriteJSON, Print, emit, hw]

/-- What `main` hands to a session comes from `authLoop` and the identifier
generator. -/
theorem mainAuth_session (c fuel : Nat) (w w' : World) (c' : Nat) (clientID adminID : Str)
    (h : mainAuth c fuel w = (.session c' clientID adminID, w')) :
    c' = c ∧ ∃ w5, authLoop c fuel w = some (.ok clientID, w5) ∧
      adminID = w5.uuid w5.uuidCalls := by
  unfold mainAuth at h
  cases ha : authLoop c fuel w with
  | none => simp [ha] at h
  | some p =>
    obtain ⟨r, w5⟩ := p
    cases r with
    | ok cid =>
      simp [ha, NewString] at h
      exact ⟨h.1.1.symm, w5, by rw [h.1.2.1], h.1.2.2.symm⟩
    | err e => simp [ha] at h
    | blocked => simp [ha] at h

/-- C2: for a line `a` read from the operator in a session, with `t` the line
without its trailing CR and LF characters: if `t` is empty nothing is sent and
the loop returns to its poll; otherwise exactly one message is sent, of kind
`command`, with the client identifier of the session (the one `authLoop`
returned), the admin id of the session, the command `t` and a `command_id`
drawn from a new call of the identifier generator. -/
theorem commandLoopStep_line (s : Session) (a rest : Str) (hpc : s.pc = .read)
    (ha : LF ∉ a) (hin : s.w.buf ++ s.w.stdin.flatten = a ++ LF :: rest) :
    (TrimRight a [CR, LF] = [] →
      (commandLoopStep s).w.out = s.w.out ∧ (commandLoopStep s).pc = .select) ∧
    (TrimRight a [CR, LF] ≠ [] →
      sent (commandLoopStep s).w.out = sent s.w.out ++
        [(s.conn, { Type_ := kCommand, ClientID := s.clientID,
                    CommandID := s.w.uuid s.w.uuidCalls,
                    Command := TrimRight a [CR, LF], ID := s.adminID })] ∧
      (commandLoopStep s).w.uuidCalls = s.w.uuidCalls + 1) ∧
    (commandLoopStep s).clientID = s.clientID ∧
    (commandLoopStep s).adminID = s.adminID ∧
    (commandLoopStep s).w.buf ++ (commandLoopStep s).w.stdin.flatten = rest ∧
    (∀ c fuel w0 w1 c' cid aid, mainAuth c fuel w0 = (.session c' cid aid, w1) →
      s = startSession c' cid aid w1 →
      ∃ w5, authLoop c fuel w0 = some (.ok s.clientID, w5)) := by
  obtain ⟨b, st, hread, hb⟩ := ReadString_line s.w a rest ha hin
  have hstep : commandLoopStep s =
      if TrimRight a [CR, LF] = [] then
        { s with w := { s.w with buf := b, stdin := st }, pc := .select }
      else
        match WriteJSON s.conn
          { Type_ := kCommand, ClientID := s.clientID,
            CommandID := s.w.uuid s.w.uuidCalls,
            Command := TrimRight a [CR, LF], ID := s.adminID }
          { s.w with buf := b, stdin := st, uuidCalls := s.w.uuidCalls + 1 } with
        | (some _, w3) => { s with w := Println txtLost (Close s.conn w3), pc := .reconnect }
        | (none, w3) => { s with w := w3, pc := .select } := by
    unfold commandLoopStep
    simp only [hpc, hread, TrimRight_append_LF]
    split <;> simp [NewString]
  refine ⟨?_, ?_, ?_, ?_, ?_, ?_⟩
  · intro ht
    rw [hstep]; simp [ht]
  · intro ht
    rw [hstep]
    simp only [ht, if_false]
    cases hw : s.w.writes with
    | nil => simp [WriteJSON, emit, hw, sent_append, sent]
    | cons e ws =>
      cases e <;> simp [WriteJSON, emit, hw, sent_append, sent, Println, Close]
  · rw [hstep]
    split
    · rfl
    · split <;> rfl
  · rw [hstep]
    split
    · rfl
    · split <;> rfl
  · rw [hstep]
    split
    · exact hb
    · cases hw : s.w.writes with
      | nil => simp [WriteJSON, emit, hw, hb]
      | cons e ws =>
        cases e <;> simp [WriteJSON, emit, hw, Println, Close, hb]
  · intro c fuel w0 w1 c' cid aid hm hs
    obtain ⟨_, w5, h5, _⟩ := mainAuth_session c fuel w0 w1 c' cid aid hm
    exact ⟨w5, by rw [hs]; exact h5⟩

/-! ### After `sessionClosed` is closed -/

theorem countSent_append (k : Str) (a b : List Event) :
    countSent k (a ++ b) = countSent k a + countSent k b := by
  induction a with
  | nil => simp [countSent]
  | cons e es ih => cases e <;> simp [countSent, ih]; omega

theorem WriteJSON_out (c : Nat) (m : Message) (w : World) :
    (WriteJSON c m w).2.out = w.out ++ [.write c m] := by
  unfold WriteJSON
  cases h : (emit (.write c m) w).writes <;> simp only [h] <;> rfl

theorem kCommand_ne_kControl : kCommand ≠ kControl := by decide

theorem kCommand_ne_kInteractiveResponse : kCommand ≠ kInteractiveResponse := by decide

theorem kControl_ne_kInteractiveResponse : kControl ≠ kInteractiveResponse := by decide

/-- The invariant of a session whose `sessionClosed` is closed, for one turn of
the command loop. -/
theorem commandLoopStep_closed (s : Session) (h : s.sessionClosed = true) :
    (commandLoopStep s).sessionClosed = true ∧
    countSent kCommand (commandLoopStep s).w.out + readsUnderWay (commandLoopStep s) ≤
      countSent kCommand s.w.out + readsUnderWay s ∧
    countSent kInteractiveResponse (commandLoopStep s).w.out =
      countSent kInteractiveResponse s.w.out ∧
    countSent kControl (commandLoopStep s).w.out = countSent kControl s.w.out := by
  unfold commandLoopStep
  cases hpc : s.pc with
  | reconnect => simp [h]
  | select =>
    simp [h, Println, Close, emit, countSent_append, countSent, readsUnderWay, hpc]
  | read =>
    simp only
    generalize hrs : ReadString s.w = rs
    have ho : rs.2.out = s.w.out := by rw [← hrs]; rfl
    obtain ⟨⟨line, err⟩, w1⟩ := rs
    simp only at ho
    cases err with
    | some e => simp [ho, h, readsUnderWay, hpc]
    | none =>
      simp only
      by_cases hcmd : TrimRight line [CR, LF] = []
      · simp [hcmd, ho, h, readsUnderWay, hpc]
      · simp only [hcmd, if_false]
        generalize hws : WriteJSON s.conn
          { Type_ := kCommand, ClientID := s.clientID, CommandID := (NewString w1).1,
            Command := TrimRight line [CR, LF], ID := s.adminID } (NewString w1).2 = ws
        have hwo := WriteJSON_out s.conn
          { Type_ := kCommand, ClientID := s.clientID, CommandID := (NewString w1).1,
            Command := TrimRight line [CR, LF], ID := s.adminID } (NewString w1).2
        rw [hws] at hwo
        have hn : (NewString w1).2.out = s.w.out := by rw [← ho]; rfl
        rw [hn] at hwo
        obtain ⟨werr, w3⟩ := ws
        simp only at hwo
        cases werr <;>
          simp [h, hwo, Println, Close, emit, countSent_append, countSent, readsUnderWay, hpc,
            kCommand_ne_kControl, kCommand_ne_kInteractiveResponse]

theorem sessionStep_closed (a : Activity) (s : Session) (h : s.sessionClosed = true) :
    (sessionStep a s).sessionClosed = true ∧
    countSent kCommand (sessionStep a s).w.out + readsUnderWay (sessionStep a s) ≤
      countSent kCommand s.w.out + readsUnderWay s ∧
    countSent kInteractiveResponse (sessionStep a s).w.out =
      countSent kInteractiveResponse s.w.out ∧
    countSent kControl (sessionStep a s).w.out =
      countSent kControl s.w.out + (if a = .interrupt then 1 else 0) := by
  cases a with
  | commandLoop => simpa [sessionStep] using commandLoopStep_closed s h
  | serverReader => simp [sessionStep, serverReaderStep, h]
  | interrupt =>
    have hwo := WriteJSON_out s.conn
      { Type_ := kControl, ClientID := s.clientID, ID := s.adminID,
        Command := "CTRL_C".toList } s.w
    simp only [sessionStep, interruptStep]
    refine ⟨h, ?_, ?_, ?_⟩
    · simp only [hwo, countSent_append, countSent, readsUnderWay]
      simp [kCommand_ne_kControl.symm]
    · simp only [hwo, countSent_append, countSent]
      simp [kControl_ne_kInteractiveResponse]
    · simp only [hwo, countSent_append, countSent]
      simp

/-- C7 (as the code has it): once `sessionClosed` is closed it stays closed,
the goroutine that reads the server sends nothing more, and the command loop
sends at most one more `command` message, and only when a read of an operator
line was under way, since it polls the signal before each read only; the
goroutine that relays interrupts does not consult the signal and sends one
`control` message for every interrupt. -/
theorem after_sessionClosed (as : List Activity) :
    ∀ s : Session, s.sessionClosed = true →
      (runSession as s).sessionClosed = true ∧
      countSent kInteractiveResponse (runSession as s).w.out =
        countSent kInteractiveResponse s.w.out ∧
      countSent kCommand (runSession as s).w.out ≤
        countSent kCommand s.w.out + (if s.pc = .read then 1 else 0) ∧
      countSent kControl (runSession as s).w.out =
        countSent kControl s.w.out + as.count .interrupt := by
  have key : ∀ (as : List Activity) (s : Session), s.sessionClosed = true →
      (runSession as s).sessionClosed = true ∧
      countSent kInteractiveResponse (runSession as s).w.out =
        countSent kInteractiveResponse s.w.out ∧
      countSent kCommand (runSession as s).w.out + readsUnderWay (runSession as s) ≤
        countSent kCommand s.w.out + readsUnderWay s ∧
      countSent kControl (runSession as s).w.out =
        countSent kControl s.w.out + as.count .interrupt := by
    intro as
    induction as with
    | nil => intro s h; simp [runSession, h]
    | cons a as ih =>
      intro s h
      obtain ⟨h1, h2, h3, h4⟩ := sessionStep_closed a s h
      obtain ⟨i1, i2, i3, i4⟩ := ih (sessionStep a s) h1
      refine ⟨i1, by rw [runSession, i2, h3], by rw [runSession]; omega, ?_⟩
      rw [runSession, i4, h4, List.count_cons]
      by_cases ha : a = .interrupt
      · simp [ha]; omega
      · have ha' : ¬ (Activity.interrupt = a) := fun e => ha e.symm
        simp [ha, ha']
  intro s h
  obtain ⟨k1, k2, k3, k4⟩ := key as s h
  refine ⟨k1, k2, ?_, k4⟩
  unfold readsUnderWay at k3
  omega

/-! ### End of the input stream -/

theorem readString_eof (src : List Str) :
    ∀ buf : Str, LF ∉ buf ++ src.flatten →
      readString buf src = ⟨buf ++ src.flatten, some EOF, [], []⟩ := by
  induction src with
  | nil =>
    intro buf h
    simp at h
    simp [readString, splitLine_none buf h]
  | cons c cs ih =>
    intro buf h
    have hb : LF ∉ buf := fun e => h (by simp [e])
    rw [readString, splitLine_none buf hb]
    simp only
    rw [ih (buf ++ c) (by simpa using h)]
    simp

/-- C8 (as the code has it): the end of the input stream ends the negotiation
when it hits the read of the identifier, and is transient when it hits the read
of the secret or a read of the command loop.  If the identifier line cannot be
read, `authLoop` returns the error after its prompt, and `main` closes the
connection and ends the pass with `continue`.  If the secret cannot be read,
`authLoop` prints a notice and goes to its next round, nothing being sent.  In
the command loop a failed read sends nothing, closes nothing and leads back to
the poll of `sessionClosed`. -/
theorem stdin_failure_handling (conn fuel : Nat) (w : World) :
    (LF ∉ w.buf ++ w.stdin.flatten →
      authLoop conn (fuel + 1) w = some (.err EOF,
        { w with buf := [], stdin := [], out := w.out ++ [.print txtAskID] }) ∧
      mainAuth conn (fuel + 1) w = (.reconnect,
        { w with buf := [], stdin := [],
                 out := w.out ++ [.print txtAskID, .print (txtLostInAuth ++ [LF]),
                                  .close conn] })) ∧
    (∀ id rest e rs, LF ∉ id → w.buf ++ w.stdin.flatten = id ++ LF :: rest →
      w.secrets = .error e :: rs →
      ∃ w', authLoop conn (fuel + 1) w = authLoop conn fuel w' ∧
        w'.out = w.out ++ promptTrace w.isTerminal ++
          [.print (txtPasswordError ++ [' '] ++ e ++ [LF])] ∧
        w'.secrets = rs ∧ w'.buf ++ w'.stdin.flatten = rest ∧
        w'.reads = w.reads ∧ w'.writes = w.writes) ∧
    (∀ s : Session, s.w = w → s.pc = .read → LF ∉ w.buf ++ w.stdin.flatten →
      commandLoopStep s = { s with w := { w with buf := [], stdin := [] }, pc := .select }) := by
  refine ⟨?_, ?_, ?_⟩
  · intro h
    have hr := readString_eof w.stdin w.buf h
    have ha : authLoop conn (fuel + 1) w = some (.err EOF,
        { w with buf := [], stdin := [], out := w.out ++ [.print txtAskID] }) := by
      rw [authLoop]
      simp [ReadString, Print, emit, hr]
    refine ⟨ha, ?_⟩
    simp [mainAuth, ha, Close, Println, emit]
  · intro id rest e rs hid hin hsec
    obtain ⟨b, st, hread, hb⟩ := ReadString_line (Print txtAskID w) id rest hid
      (by simpa [Print, emit] using hin)
    rw [authLoop]
    simp only [hread]
    cases ht : w.isTerminal <;>
      refine ⟨_, by
        simp [readPassword, Print, Println, emit, hsec, ht]
        rfl, ?_, ?_, ?_, ?_, ?_⟩ <;>
      simp [Println2, Print, emit, promptTrace, hb, ht]
  · intro s hs hpc h
    have hr := readString_eof w.stdin w.buf h
    unfold commandLoopStep
    simp [hpc, ReadString, hs, hr]

/-- C9 (as the code has it): `drainStdin` returns with an empty buffer, having
consumed input only, and `main` calls it after the hello exchange and before
`authLoop`: negotiation and the session that follows start from a reader that
holds no byte buffered before. -/
theorem drainStdin_before_authLoop (fuel : Nat) (w : World) :
    (pending w.buf w.stdin < fuel →
      ∃ n, drainStdin fuel w = some { w with buf := [], stdin := w.stdin.drop n }) ∧
    (∀ c w1 w2 helloResp w3, connectWithRetry server fuel w = some (.conn c, w1) →
      WriteJSON c adminHello w1 = (none, w2) →
      ReadJSON c w2 = some (.ok helloResp, w3) → helloResp.Type_ ≠ kError →
      pending w3.buf w3.stdin < fuel →
      ∃ n, mainIter fuel w =
        mainAuth c fuel { w3 with buf := [], stdin := w3.stdin.drop n }) := by
  refine ⟨drainStdin_spec fuel w, ?_⟩
  intro c w1 w2 helloResp w3 hc hw hr hk hp
  obtain ⟨n, hn⟩ := drainStdin_spec fuel w3 hp
  refine ⟨n, ?_⟩
  unfold mainIter
  simp [hc, hw, hr, hk, hn]

/-- C5: after `n` transient dial failures followed by a success,
`connectWithRetry` returns the connection of dial `n + 1`, having dialled
exactly `n + 1` times and slept 10 seconds once after each failure, for every
`n`. -/
theorem connectWithRetry_returns_after_failures (srv : Str) (w : World)
    (fails : List DialResult) (c : Nat) (rest : List DialResult) (fuel : Nat)
    (hd : w.dials = fails ++ .ok c :: rest) (ht : ∀ d ∈ fails, transient d)
    (hfuel : fails.length + 1 ≤ fuel) :
    ∃ w', connectWithRetry srv fuel w = some (.conn c, w') ∧ w'.dials = rest ∧
      w'.out = w.out ++ retriesTrace srv fails.length ++
        [.dial srv, .print (txtConnected ++ [LF])] ∧
      dialCount w'.out = dialCount w.out + (fails.length + 1) ∧
      sleptSeconds w'.out = sleptSeconds w.out + 10 * fails.length := by
  obtain ⟨k, rfl⟩ : ∃ k, fuel = fails.length + (k + 1) := ⟨fuel - fails.length - 1, by omega⟩
  rw [connectWithRetry_skip srv fails (k + 1) w _ hd ht, connectWithRetry]
  refine ⟨_, rfl, ?_, ?_, ?_, ?_⟩
  · simp [Println, emit]
  · simp [Println, emit]
  · simp [Println, emit, dialCount_append, dialCount_retriesTrace, dialCount]
  · simp [Println, emit, sleptSeconds_append, sleptSeconds_retriesTrace, sleptSeconds]


/-! ### Concrete runs -/

/-- The end-to-end scenario of the specification: the whole trace of `main`
and of the session, the command loop reading `ls` before the result arrives. -/
theorem scenario_trace :
    (runMain 3 [.commandLoop, .commandLoop, .serverReader] scenarioWorld).map
        (fun s => (sent s.w.out, s.w.out.getLast?)) =
      some ([(1, adminHello),
             (1, { Type_ := kAuth, ClientID := "c1".toList, Password := "p".toList }),
             (1, { Type_ := kAuth, ClientID := "c1".toList, Password := "p".toList }),
             (1, { Type_ := kRegister, Role := "admin".toList, ID := "admin-1".toList }),
             (1, { Type_ := kCommand, ClientID := "c1".toList, CommandID := "cmd-1".toList,
                   Command := "ls".toList, ID := "admin-1".toList })],
            some (.print "file.txt\n".toList)) := by
  decide

/-- Witness of C1: the scenario's negotiation, rejected once, then accepted. -/
theorem authLoop_accepts_after_rejections_witness :
    ∃ w', authLoop 1 2 authWorld = some (.ok "c1".toList, w') ∧
      sent w'.out =
        [(1, { Type_ := kAuth, ClientID := "c1".toList, Password := "p".toList }),
         (1, { Type_ := kAuth, ClientID := "c1".toList, Password := "p".toList })] ∧
      (sent w'.out).length = 2 :=
  authLoop_accepts_after_rejections 1 [rejectedRound] authWorld acceptedRound [] [] [] 2
    (by decide) (by decide) rfl (by decide) rfl (by decide) (by decide)
    (by decide)

/-- Witness of C2: the operator types `ls` in a session attached to `c1`. -/
theorem commandLoopStep_line_witness :
    sent (commandLoopStep lsSession).w.out =
        [(1, { Type_ := kCommand, ClientID := "c1".toList, CommandID := "cmd-1".toList,
               Command := "ls".toList, ID := "admin-1".toList })] ∧
      (commandLoopStep lsSession).w.uuidCalls = 1 :=
  (commandLoopStep_line lsSession "ls".toList [] (by decide) (by decide) (by decide)).2.1
    (by decide)

/-- Witness of C3: the output `ok` and its line break are displayed as they
are. -/
theorem serverReaderStep_result_witness :
    (serverReaderStep resultSession).w.out = [.print "ok\n".toList] :=
  (serverReaderStep_result resultSession resultMessage [] (by decide) rfl
    (by decide)).1 "ok\n".toList (by decide)

/-- Witness of C4: a timeout, then a 403 rejection. -/
theorem connectWithRetry_exit_iff_403_witness :
    ∃ w', connectWithRetry server 2 rejectedWorld = some (.exited 1, w') ∧
      w'.dials = [.ok 7] ∧
      w'.out = [.dial server, .print (txtUnavailable ++ [LF]), .sleep 10,
                .dial server, .print (txtBlocked ++ [LF]), .sleep 30, .exit 1] ∧
      (server = server → mainLoop 2 rejectedWorld = some (.exited 1, w')) :=
  (connectWithRetry_exit_iff_403 server 2 rejectedWorld).1
    [.fail none "i/o timeout".toList] "bad handshake".toList [.ok 7] (by decide)
    (by
      intro d hd
      simp only [List.mem_singleton] at hd
      exact ⟨none, "i/o timeout".toList, hd, by decide⟩)
    (by decide)

/-- Witness of C5: a timeout and a 502, then a success. -/
theorem connectWithRetry_returns_after_failures_witness :
    ∃ w', connectWithRetry server 3 retryWorld = some (.conn 7, w') ∧ w'.dials = [] ∧
      w'.out = [.dial server, .print (txtUnavailable ++ [LF]), .sleep 10,
                .dial server, .print (txtUnavailable ++ [LF]), .sleep 10,
                .dial server, .print (txtConnected ++ [LF])] ∧
      dialCount w'.out = 3 ∧ sleptSeconds w'.out = 20 :=
  connectWithRetry_returns_after_failures server retryWorld
    [.fail none "i/o timeout".toList, .fail (some 502) "bad handshake".toList] 7 [] 3
    (by decide)
    (by
      intro d hd
      simp only [List.mem_cons, List.mem_singleton, List.not_mem_nil, or_false] at hd
      rcases hd with rfl | rfl
      · exact ⟨none, _, rfl, by decide⟩
      · exact ⟨some 502, _, rfl, by decide⟩)
    (by decide)

/-- Witness of C6: the transport refuses the `auth` message of the first
round; the second identifier line is never read. -/
theorem authLoop_transport_error_reconnects_witness :
    ∃ w', authLoop 1 3 brokenWriteWorld = some (.err "broken pipe".toList, w') ∧
      w'.out = [.print txtAskID, .print txtAskPassword,
                .write 1 { Type_ := kAuth, ClientID := "c1".toList,
                           Password := "p".toList }] ∧
      w'.reads = [] ∧ w'.secrets = [.ok "q\n".toList] ∧
      w'.buf ++ w'.stdin.flatten = "c2\n".toList :=
  ((authLoop_transport_error_reconnects 1 2 brokenWriteWorld).1
    "c1".toList "c2\n".toList "p\n".toList [.ok "q\n".toList]
    (by decide) (by decide) rfl).1 "broken pipe".toList [] (by decide)

/-- Counterexample to C7: the command loop polls the open signal and blocks in
its read; the server announces `session_closed` and the signal is set; the
operator then types `ls` and presses the interrupt key: a `command` and a
`control` message are sent on the connection of the closed session. -/
theorem command_and_control_after_sessionClosed :
    closedSession.sessionClosed = true ∧ sent closedSession.w.out = [] ∧
    sent (runSession [.commandLoop, .interrupt] closedSession).w.out =
      [(1, { Type_ := kCommand, ClientID := "c1".toList, CommandID := "cmd-1".toList,
             Command := "ls".toList, ID := "admin-1".toList }),
       (1, { Type_ := kControl, ClientID := "c1".toList, ID := "admin-1".toList,
             Command := "CTRL_C".toList })] := by
  decide

/-- Witness of C7 as the code has it: after the signal, one more `command` at
most, and one `control` per interrupt. -/
theorem after_sessionClosed_witness :
    (runSession [.commandLoop, .interrupt, .commandLoop, .interrupt] closedSession).sessionClosed
        = true ∧
      countSent kInteractiveResponse
          (runSession [.commandLoop, .interrupt, .commandLoop, .interrupt] closedSession).w.out =
        countSent kInteractiveResponse closedSession.w.out ∧
      countSent kCommand
          (runSession [.commandLoop, .interrupt, .commandLoop, .interrupt] closedSession).w.out ≤
        countSent kCommand closedSession.w.out + (if closedSession.pc = .read then 1 else 0) ∧
      countSent kControl
          (runSession [.commandLoop, .interrupt, .commandLoop, .interrupt] closedSession).w.out =
        countSent kControl closedSession.w.out +
          [Activity.commandLoop, .interrupt, .commandLoop, .interrupt].count .interrupt :=
  after_sessionClosed [.commandLoop, .interrupt, .commandLoop, .interrupt] closedSession
    (by decide)

/-- Counterexample to C8: at the end of the input stream `authLoop` returns an
error at its first read, and the command loop neither ends nor closes the
session: after a poll, a failed read and another poll it stands before its
next read, with nothing closed. -/
theorem stdin_failure_counterexample :
    (authLoop 1 1 eofWorld).map (fun p => (p.1, p.2.out)) =
      some (.err EOF, [.print txtAskID]) ∧
    (runSession [.commandLoop, .commandLoop, .commandLoop] eofSession).pc = .read ∧
    (runSession [.commandLoop, .commandLoop, .commandLoop] eofSession).w.out = [] ∧
    (runSession [.commandLoop, .commandLoop, .commandLoop] eofSession).sessionClosed = false := by
  decide

/-- Witness of C8 as the code has it: the secret cannot be read in the first
round, and the loop goes on to its second round. -/
theorem stdin_failure_handling_witness :
    ∃ w', authLoop 1 2 noSecretWorld = authLoop 1 1 w' ∧
      w'.out = [.print txtAskID, .print txtAskPassword,
                .print (txtPasswordError ++ [' '] ++ "EOF".toList ++ [LF])] ∧
      w'.secrets = [] ∧ w'.buf ++ w'.stdin.flatten = [] ∧
      w'.reads = [] ∧ w'.writes = [] :=
  (stdin_failure_handling 1 1 noSecretWorld).2.1 "c1".toList [] "EOF".toList []
    (by decide) (by decide) rfl

/-- Counterexample to C9: with piped input the first read of `authLoop` brings
the identifier line and the line `ls` into the buffer; `ls` is still buffered
when `authLoop` has returned and the session starts, and the first read of the
command loop sends it as a command. -/
theorem buffered_line_sent_as_command :
    (runMain 3 [] pipedWorld).map (fun s => (s.clientID, s.w.buf, s.w.stdin)) =
      some ("c1".toList, "ls\n".toList, []) ∧
    (runMain 3 [.commandLoop, .commandLoop] pipedWorld).map (fun s => (sent s.w.out).getLast?) =
      some (some (1, { Type_ := kCommand, ClientID := "c1".toList,
                       CommandID := "cmd-1".toList, Command := "ls".toList,
                       ID := "admin-1".toList })) := by
  decide

/-- Witness of C9 as the code has it: a stale line and the start of another
one are drained before the negotiation. -/
theorem drainStdin_before_authLoop_witness :
    ∃ n, drainStdin 20 staleWorld =
      some { staleWorld with buf := [], stdin := staleWorld.stdin.drop n } :=
  (drainStdin_before_authLoop 20 staleWorld).1 (by decide)

/-- Witness of C10: the prompt is displayed and acknowledged, and the goroutine
goes on although the send fails. -/
theorem serverReaderStep_interactive_prompt_witness :
    (serverReaderStep promptSession).w.out =
        [.print "Password: ".toList,
         .write 1 { Type_ := kInteractiveResponse, CommandID := "cmd-7".toList,
                    ID := "admin-1".toList, Command := [], ClientID := [] }] ∧
      (serverReaderStep promptSession).sessionClosed = false ∧
      (serverReaderStep promptSession).w.reads = [] ∧
      (serverReaderStep promptSession).pc = .select :=
  serverReaderStep_interactive_prompt promptSession promptMessage [] (by decide) rfl
    (by decide)

/-! ### Further properties of the dispatch and of the hello exchange -/

/-- A received `session_closed` displays the notice, sends nothing and ends
the goroutine, which sets the signal; the command loop, at its next poll,
closes the connection and leaves the session. -/
theorem serverReaderStep_session_closed (s : Session) (msg : Message)
    (rest : List (Except Str Message)) (hopen : s.sessionClosed = false)
    (hrd : s.w.reads = .ok msg :: rest) (hk : msg.Type_ = kSessionClosed) :
    (serverReaderStep s).w.out = s.w.out ++ [.print (txtClientClosed ++ [LF])] ∧
    (serverReaderStep s).sessionClosed = true ∧
    (∀ s' : Session, s'.sessionClosed = true → s'.pc = .select →
      (commandLoopStep s').pc = .reconnect ∧
      (commandLoopStep s').w.out =
        s'.w.out ++ [.close s'.conn, .print (txtReconnect ++ [LF])]) := by
  have h1 : kSessionClosed ≠ kInteractivePrompt := by decide
  have h2 : kSessionClosed ≠ kResult := by decide
  refine ⟨?_, ?_, ?_⟩
  · simp [serverReaderStep, hopen, ReadJSON, hrd, hk, h1, h2, Println, emit]
  · simp [serverReaderStep, hopen, ReadJSON, hrd, hk, h1, h2]
  · intro s' hc hpc
    simp [commandLoopStep, hc, hpc, Println, Close, emit]

theorem serverReaderStep_session_closed_witness :
    (serverReaderStep closingSession).w.out = [.print (txtClientClosed ++ [LF])] ∧
    (serverReaderStep closingSession).sessionClosed = true :=
  ⟨(serverReaderStep_session_closed closingSession { Type_ := kSessionClosed } []
      (by decide) rfl (by decide)).1,
   (serverReaderStep_session_closed closingSession { Type_ := kSessionClosed } []
      (by decide) rfl (by decide)).2.1⟩

/-- A received message of any other kind is ignored: nothing is displayed,
nothing is sent, and the goroutine goes on to the next receive. -/
theorem serverReaderStep_other_kind (s : Session) (msg : Message)
    (rest : List (Except Str Message)) (hopen : s.sessionClosed = false)
    (hrd : s.w.reads = .ok msg :: rest) (h1 : msg.Type_ ≠ kInteractivePrompt)
    (h2 : msg.Type_ ≠ kResult) (h3 : msg.Type_ ≠ kSessionClosed) :
    (serverReaderStep s).w.out = s.w.out ∧
    (serverReaderStep s).sessionClosed = false ∧
    (serverReaderStep s).w.reads = rest := by
  simp [serverReaderStep, hopen, ReadJSON, hrd, h1, h2, h3]

theorem serverReaderStep_other_kind_witness :
    (serverReaderStep pingSession).w.out = [] ∧
    (serverReaderStep pingSession).sessionClosed = false ∧
    (serverReaderStep pingSession).w.reads = [] :=
  serverReaderStep_other_kind pingSession pingMessage [] (by decide) rfl (by decide)
    (by decide) (by decide)

/-- A hello answered with `error` is a soft rejection: `main` displays the
reason, closes the connection, announces the retry, sleeps 10 seconds and
starts its next pass. -/
theorem mainIter_hello_rejected (fuel : Nat) (w w1 w2 w3 : World) (c : Nat)
    (helloResp : Message)
    (hc : connectWithRetry server fuel w = some (.conn c, w1))
    (hw : WriteJSON c adminHello w1 = (none, w2))
    (hr : ReadJSON c w2 = some (.ok helloResp, w3)) (hk : helloResp.Type_ = kError) :
    mainIter fuel w = (.reconnect,
      { w3 with out := w3.out ++ [.print (helloResp.Error ++ [LF]), .close c,
                                  .print (txtRetry ++ [LF]), .sleep 10] }) := by
  simp [mainIter, hc, hw, hr, hk, Sleep, Println, Close, emit]

theorem mainIter_hello_rejected_witness :
    (mainIter 1 refusedWorld).1 = .reconnect ∧
    (mainIter 1 refusedWorld).2.out =
      [.dial server, .print (txtConnected ++ [LF]), .write 1 adminHello,
       .print ("bad api key".toList ++ [LF]), .close 1, .print (txtRetry ++ [LF]),
       .sleep 10] := by
  have h := mainIter_hello_rejected 1 refusedWorld _ _ _ 1 refusedHello rfl rfl rfl
    (by decide)
  rw [h]
  exact ⟨rfl, by decide⟩

/-- Every interrupt delivered to the relay sends one `control` message with
the client identifier and the admin id of the session and the command
`CTRL_C`, whatever the state of the session and the outcome of the send. -/
theorem interruptStep_sends_control (s : Session) :
    (interruptStep s).w.out = s.w.out ++
      [.write s.conn { Type_ := kControl, ClientID := s.clientID, ID := s.adminID,
                       Command := "CTRL_C".toList }] ∧
    (interruptStep s).sessionClosed = s.sessionClosed ∧
    (interruptStep s).pc = s.pc := by
  refine ⟨?_, rfl, rfl⟩
  simp only [interruptStep]
  exact WriteJSON_out _ _ _

end GetadViewer
